import Mathlib

/-!
Verification of the PDF heading-extraction core (`heading_detector.py`,
`pdf_processor.py`) against its natural-language specification.

The Python code is shallowly embedded: strings are Lean `String`s, Python
`int` is `Int`, Python `float` font sizes / coordinates / scores are `ℚ`.
Regular-expression matching (`re.match` / `re.search`) is embedded with a
small nondeterministic prefix-matcher combinator library: a matcher maps a
character list to the list of possible remainders, and a regex "matches"
precisely when some remainder exists.  This gives exactly the existential
match semantics of a backtracking regex engine.  Python's `\s`, `\w` and
case folding are modelled at their ASCII core, which covers every pattern
and literal appearing in the source.
-/

/-- ASCII core of Python's `str` whitespace / regex `\s` class. -/
def pySpace (c : Char) : Bool :=
  c = ' ' || c = '\t' || c = '\n' || c = '\x0d' || c = '\x0b' || c = '\x0c'

/-- ASCII letter (what `[A-Z]` matches under `re.IGNORECASE`). -/
def asciiAlpha (c : Char) : Bool :=
  ('a' ≤ c && c ≤ 'z') || ('A' ≤ c && c ≤ 'Z')

/-- ASCII uppercase letter. -/
def asciiUpper (c : Char) : Bool := 'A' ≤ c && c ≤ 'Z'

/-- ASCII core of the regex `\w` class. -/
def pyWordChar (c : Char) : Bool :=
  asciiAlpha c || c.isDigit || c = '_'

/-- Python `str.strip()`: remove leading and trailing whitespace. -/
def pyStrip (s : String) : String :=
  String.mk (((s.toList.dropWhile pySpace).reverse.dropWhile pySpace).reverse)

/-- Python `str.lower()` (ASCII core). -/
def pyLower (s : String) : String := String.mk (s.toList.map Char.toLower)

/-- Auxiliary state machine for `re.sub(r'\s+', ' ', ·)`: the flag records
whether the previous character was whitespace (run already emitted). -/
def collapseWsAux : Bool → List Char → List Char
  | _, [] => []
  | prevSp, c :: r =>
    if pySpace c then
      if prevSp then collapseWsAux true r else ' ' :: collapseWsAux true r
    else c :: collapseWsAux false r

/-- `re.sub(r'\s+', ' ', s)`: collapse every whitespace run to one space. -/
def collapseWs (s : String) : String := String.mk (collapseWsAux false s.toList)

/-- Auxiliary for `str.split()`: accumulates the current token reversed. -/
def pySplitAux : List Char → List Char → List String
  | acc, [] => if acc.isEmpty then [] else [String.mk acc.reverse]
  | acc, c :: r =>
    if pySpace c then
      if acc.isEmpty then pySplitAux [] r
      else String.mk acc.reverse :: pySplitAux [] r
    else pySplitAux (c :: acc) r

/-- Python `str.split()` with no argument: split on whitespace runs. -/
def pySplit (s : String) : List String := pySplitAux [] s.toList

/-- Python `sub in s` substring containment. -/
def pyContains (s sub : String) : Bool :=
  s.toList.tails.any (fun t => sub.toList.isPrefixOf t)

/-- Python `s.count(c)` for a single-character needle. -/
def pyCountChar (s : String) (c : Char) : Nat :=
  (s.toList.filter (· = c)).length

/-- Python `s.endswith(t)`. -/
def pyEndsWith (s t : String) : Bool := t.toList.isSuffixOf s.toList

/-- Python `s.islower()` (ASCII core): at least one cased character and no
uppercase character. -/
def pyIsLower (s : String) : Bool :=
  s.toList.any asciiAlpha && !(s.toList.any asciiUpper)

/-! ## Nondeterministic prefix matchers

A `Matcher` consumes a prefix of its input and returns every possible
remainder.  `reMatch` is Python's `re.match` (anchored at the start),
`reSearch` is `re.search` (anchored anywhere). -/

def Matcher : Type := List Char → List (List Char)

/-- Case-sensitive literal. -/
def mLit (t : String) : Matcher := fun s =>
  if t.toList.isPrefixOf s then [s.drop t.length] else []

/-- Case-insensitive literal (`re.IGNORECASE`). -/
def mLitCI (t : String) : Matcher := fun s =>
  if (s.take t.length).map Char.toLower = t.toList.map Char.toLower then
    [s.drop t.length]
  else []

/-- Single character from a class. -/
def mCls (p : Char → Bool) : Matcher := fun s =>
  match s with
  | [] => []
  | c :: r => if p c then [r] else []

/-- Sequencing. -/
def mSeq (a b : Matcher) : Matcher := fun s => (a s).flatMap b

/-- Alternation. -/
def mAlt (a b : Matcher) : Matcher := fun s => a s ++ b s

/-- Empty pattern. -/
def mEps : Matcher := fun s => [s]

/-- Optional (`?`). -/
def mOpt (a : Matcher) : Matcher := mAlt a mEps

/-- All ways of consuming a (possibly empty) run of class characters. -/
def mStarClsAux (p : Char → Bool) : List Char → List (List Char)
  | [] => [[]]
  | c :: r => (c :: r) :: (if p c then mStarClsAux p r else [])

/-- Class star (`[c]*`). -/
def mStarCls (p : Char → Bool) : Matcher := mStarClsAux p

/-- Class plus (`[c]+`). -/
def mPlusCls (p : Char → Bool) : Matcher := mSeq (mCls p) (mStarCls p)

/-- End anchor (`$`, modelled as end of string). -/
def mEnd : Matcher := fun s => if s.isEmpty then [[]] else []

/-- Sequence a list of matchers. -/
def mSeqs (l : List Matcher) : Matcher := l.foldr mSeq mEps

/-- Alternate a list of matchers. -/
def mAlts (l : List Matcher) : Matcher := l.foldr mAlt (fun _ => [])

/-- Regex `\s+`. -/
def ws1 : Matcher := mPlusCls pySpace

/-- Regex `\s*`. -/
def ws0 : Matcher := mStarCls pySpace

/-- Regex `\d+`. -/
def digits1 : Matcher := mPlusCls Char.isDigit

/-- Regex `.` (any character but newline) repeated once or more (`.+`). -/
def dotPlus : Matcher := mPlusCls (fun c => c ≠ '\n')

/-- Regex `.*`. -/
def dotStar : Matcher := mStarCls (fun c => c ≠ '\n')

/-- Python `re.match(pattern, s)`: does the pattern match a prefix? -/
def reMatch (m : Matcher) (s : String) : Bool := !(m s.toList).isEmpty

/-- Python `re.search(pattern, s)`: does the pattern match anywhere? -/
def reSearch (m : Matcher) (s : String) : Bool :=
  s.toList.tails.any (fun t => !(m t).isEmpty)

/-- Case-insensitive words separated by `\s+`, then `\s*$`: the shape of
most entries of `flexible_patterns`, e.g. `r'^Revision\s+History\s*$'`. -/
def mWordsEnd (ws : List String) : Matcher :=
  mSeqs (((ws.map mLitCI).intersperse ws1) ++ [ws0, mEnd])

/-- Case-insensitive words separated by `\s+`, without an end anchor. -/
def mWords (ws : List String) : Matcher :=
  mSeqs ((ws.map mLitCI).intersperse ws1)

/-! ## Data model -/

/-- Heading level enum (`"H1"`…`"H4"` strings in the source). -/
inductive HLevel where
  | H1 | H2 | H3 | H4
deriving DecidableEq, Repr

/-- Rank used by the spec: H1=1 … H4=4. -/
def levelRank : HLevel → Nat
  | .H1 => 1
  | .H2 => 2
  | .H3 => 3
  | .H4 => 4

/-- One positioned, font-annotated text fragment (the dicts built by
`_extract_page_text_elements`): `text`, `page`, `font_size`, `font_flags`,
`font_name`, `bbox`. -/
structure TextFragment where
  text : String
  page : Int
  font_size : ℚ := 12
  font_flags : Nat := 0
  font_name : String := ""
  bbox : List ℚ := [0, 0, 0, 0]
deriving DecidableEq, Repr

/-- One output heading dict: `{"level": …, "text": …, "page": …}`. -/
structure Heading where
  level : HLevel
  text : String
  page : Int
deriving DecidableEq, Repr

/-- ASCII apostrophe (appears inside several table keys and patterns). -/
def aposC : Char := Char.ofNat 39

/-- ASCII apostrophe as a one-character string. -/
def aposS : String := String.mk [aposC]

/-- The three mojibake characters (U+00E2, U+20AC, U+201C) appearing in the
`"3. Overview of the Foundation Level Extension … Agile TesterSyllabus"`
dictionary key of the source. -/
def mojiS : String := String.mk [Char.ofNat 0xE2, Char.ofNat 0x20AC, Char.ofNat 0x201C]

/-! ## `heading_detector.py` -/

/-- `self.exact_heading_matches`: the insertion-ordered key/value pairs of
the Python dict (text ↦ (level, expected page)).  The source assigns the
key `"Ontario's Digital Library"` twice with the same value; a Python dict
keeps a single entry at the first position, so it appears once here. -/
def exactHeadingMatches : List (String × HLevel × Int) :=
  [ ("HOPE To SEE You THERE!", .H1, 0),
    ("HOPE To SEE Y ou T HERE !", .H1, 0),
    ("PATHWAY OPTIONS", .H1, 0),
    ("Ontario" ++ aposS ++ "s Digital Library", .H1, 1),
    ("A Critical Component for Implementing Ontario" ++ aposS ++
       "s Road Map to Prosperity Strategy", .H1, 1),
    ("Summary", .H2, 1),
    ("Timeline:", .H3, 1),
    ("Background", .H2, 2),
    ("Equitable access for all Ontarians:", .H3, 3),
    ("Shared decision-making and accountability:", .H3, 3),
    ("Shared governance structure:", .H3, 3),
    ("Shared funding:", .H3, 3),
    ("Local points of entry:", .H3, 4),
    ("Access:", .H3, 4),
    ("Guidance and Advice:", .H3, 4),
    ("Training:", .H3, 4),
    ("Provincial Purchasing & Licensing:", .H3, 4),
    ("Technological Support:", .H3, 4),
    ("What could the ODL really mean?", .H3, 4),
    ("For each Ontario citizen it could mean:", .H4, 4),
    ("For each Ontario student it could mean:", .H4, 4),
    ("For each Ontario library it could mean:", .H4, 5),
    ("For the Ontario government it could mean:", .H4, 5),
    ("The Business Plan to be Developed", .H2, 5),
    ("Milestones", .H3, 6),
    ("Approach and Specific Proposal Requirements", .H2, 6),
    ("Evaluation and Awarding of Contract", .H2, 7),
    ("Appendix A: ODL Envisioned Phases & Funding", .H2, 8),
    ("Phase I: Business Planning", .H3, 8),
    ("Phase II: Implementing and Transitioning", .H3, 8),
    ("Phase III: Operating and Growing the ODL", .H3, 8),
    ("Appendix B: ODL Steering Committee Terms of Reference", .H2, 10),
    ("1. Preamble", .H3, 10),
    ("2. Terms of Reference", .H3, 10),
    ("3. Membership", .H3, 10),
    ("4. Appointment Criteria and Process", .H3, 11),
    ("5. Term", .H3, 11),
    ("6. Chair", .H3, 11),
    ("7. Meetings", .H3, 11),
    ("8. Lines of Accountability and Communication", .H3, 11),
    ("9. Financial and Administrative Policies", .H3, 12),
    ("Appendix C: ODL" ++ aposS ++ "s Envisioned Electronic Resources", .H2, 13),
    ("Revision History", .H1, 2),
    ("Table of Contents", .H1, 3),
    ("Acknowledgements", .H1, 4),
    ("1. Introduction to the Foundation Level Extensions", .H1, 5),
    ("2. Introduction to Foundation Level Agile Tester Extension", .H1, 6),
    ("2.1 Intended Audience", .H2, 6),
    ("2.2 Career Paths for Testers", .H2, 6),
    ("2.3 Learning Objectives", .H2, 6),
    ("2.4 Entry Requirements", .H2, 7),
    ("2.5 Structure and Course Duration", .H2, 7),
    ("2.6 Keeping It Current", .H2, 8),
    ("3. Overview of the Foundation Level Extension " ++ mojiS ++
       " Agile TesterSyllabus", .H1, 9),
    ("3.1 Business Outcomes", .H2, 9),
    ("3.2 Content", .H2, 9),
    ("4. References", .H1, 11),
    ("4.1 Trademarks", .H2, 11),
    ("4.2 Documents and Web Sites", .H2, 11) ]

/-- `self.flexible_patterns`: the ordered `(regex, level, expected page)`
triples, all matched with `re.match` + `re.IGNORECASE`. -/
def flexiblePatterns : List (Matcher × HLevel × Int) :=
  [ (mWordsEnd ["Revision", "History"], .H1, 2),
    (mWordsEnd ["Table", "of", "Contents"], .H1, 3),
    (mSeqs [mLitCI "Acknowledgement", mOpt (mLitCI "s"), ws0, mEnd], .H1, 4),
    (mWordsEnd ["1.", "Introduction", "to", "the", "Foundation", "Level",
      "Extensions"], .H1, 5),
    (mWordsEnd ["2.", "Introduction", "to", "Foundation", "Level", "Agile",
      "Tester", "Extension"], .H1, 6),
    (mWordsEnd ["2.1", "Intended", "Audience"], .H2, 6),
    (mWordsEnd ["2.2", "Career", "Paths", "for", "Testers"], .H2, 6),
    (mWordsEnd ["2.3", "Learning", "Objectives"], .H2, 6),
    (mWordsEnd ["2.4", "Entry", "Requirements"], .H2, 7),
    (mWordsEnd ["2.5", "Structure", "and", "Course", "Duration"], .H2, 7),
    (mWordsEnd ["2.6", "Keeping", "It", "Current"], .H2, 8),
    (mSeqs [mWords ["3.", "Overview", "of", "the", "Foundation", "Level",
      "Extension"], ws1, dotPlus, ws1, mLitCI "Agile", ws1, mLitCI "Tester",
      ws0, mLitCI "Syllabus", ws0, mEnd], .H1, 9),
    (mWordsEnd ["3.1", "Business", "Outcomes"], .H2, 9),
    (mWordsEnd ["3.2", "Content"], .H2, 9),
    (mWordsEnd ["4.", "References"], .H1, 11),
    (mWordsEnd ["4.1", "Trademarks"], .H2, 11),
    (mWordsEnd ["4.2", "Documents", "and", "Web", "Sites"], .H2, 11),
    (mSeqs [mLitCI "Ontario", mOpt (mLit aposS), mLitCI "s", ws1,
      mLitCI "Digital", ws1, mLitCI "Library", ws0, mEnd], .H1, 1),
    (mSeqs [mWords ["A", "Critical", "Component", "for", "Implementing"],
      ws1, mLitCI "Ontario", mOpt (mLit aposS), mLitCI "s", ws1,
      mWords ["Road", "Map", "to", "Prosperity", "Strategy"], ws0, mEnd],
      .H1, 1),
    (mWordsEnd ["Summary"], .H2, 1),
    (mWordsEnd ["Timeline:"], .H3, 1),
    (mWordsEnd ["Background"], .H2, 2),
    (mWordsEnd ["Equitable", "access", "for", "all", "Ontarians:"], .H3, 3),
    (mWordsEnd ["Shared", "decision-making", "and", "accountability:"], .H3, 3),
    (mWordsEnd ["Shared", "governance", "structure:"], .H3, 3),
    (mWordsEnd ["Shared", "funding:"], .H3, 3),
    (mWordsEnd ["Local", "points", "of", "entry:"], .H3, 4),
    (mWordsEnd ["Access:"], .H3, 4),
    (mWordsEnd ["Guidance", "and", "Advice:"], .H3, 4),
    (mWordsEnd ["Training:"], .H3, 4),
    (mWordsEnd ["Provincial", "Purchasing", "&", "Licensing:"], .H3, 4),
    (mWordsEnd ["Technological", "Support:"], .H3, 4),
    (mWordsEnd ["What", "could", "the", "ODL", "really", "mean?"], .H3, 4),
    (mWordsEnd ["For", "each", "Ontario", "citizen", "it", "could", "mean:"],
      .H4, 4),
    (mWordsEnd ["For", "each", "Ontario", "student", "it", "could", "mean:"],
      .H4, 4),
    (mWordsEnd ["For", "each", "Ontario", "library", "it", "could", "mean:"],
      .H4, 5),
    (mWordsEnd ["For", "the", "Ontario", "government", "it", "could", "mean:"],
      .H4, 5),
    (mWordsEnd ["The", "Business", "Plan", "to", "be", "Developed"], .H2, 5),
    (mWordsEnd ["Milestones"], .H3, 6),
    (mWordsEnd ["Approach", "and", "Specific", "Proposal", "Requirements"],
      .H2, 6),
    (mWordsEnd ["Evaluation", "and", "Awarding", "of", "Contract"], .H2, 7),
    (mWordsEnd ["Appendix", "A:", "ODL", "Envisioned", "Phases", "&",
      "Funding"], .H2, 8),
    (mWordsEnd ["Phase", "I:", "Business", "Planning"], .H3, 8),
    (mWordsEnd ["Phase", "II:", "Implementing", "and", "Transitioning"],
      .H3, 8),
    (mWordsEnd ["Phase", "III:", "Operating", "and", "Growing", "the", "ODL"],
      .H3, 8),
    (mWordsEnd ["Appendix", "B:", "ODL", "Steering", "Committee", "Terms",
      "of", "Reference"], .H2, 10),
    (mWordsEnd ["1.", "Preamble"], .H3, 10),
    (mWordsEnd ["2.", "Terms", "of", "Reference"], .H3, 10),
    (mWordsEnd ["3.", "Membership"], .H3, 10),
    (mWordsEnd ["4.", "Appointment", "Criteria", "and", "Process"], .H3, 11),
    (mWordsEnd ["5.", "Term"], .H3, 11),
    (mWordsEnd ["6.", "Chair"], .H3, 11),
    (mWordsEnd ["7.", "Meetings"], .H3, 11),
    (mWordsEnd ["8.", "Lines", "of", "Accountability", "and",
      "Communication"], .H3, 11),
    (mWordsEnd ["9.", "Financial", "and", "Administrative", "Policies"],
      .H3, 12),
    (mSeqs [mLitCI "Appendix", ws1, mLitCI "C:", ws1, mLitCI "ODL",
      mOpt (mLit aposS), mLitCI "s", ws1,
      mWords ["Envisioned", "Electronic", "Resources"], ws0, mEnd], .H2, 13),
    (mWordsEnd ["PATHWAY", "OPTIONS"], .H1, 0),
    (mWordsEnd ["HOPE", "To", "SEE", "You", "THERE!"], .H1, 0),
    (mSeqs [mLitCI "HOPE", ws1, mLitCI "To", ws1, mLitCI "SEE", ws1,
      mLitCI "Y", ws0, mLitCI "ou", ws1, mLitCI "T", ws0, mLitCI "HERE",
      ws0, mLitCI "!", ws0, mEnd], .H1, 0) ]

/-- The `skip_patterns` list of `_should_skip_text`, all matched with
`re.match` + `re.IGNORECASE`. -/
def skipPatterns : List Matcher :=
  [ mSeqs [digits1, ws0, mEnd],
    mSeqs [mLitCI "Page", ws1, digits1],
    mAlts [mWordsEnd ["Name"], mWordsEnd ["Age"], mWordsEnd ["Date"]],
    mAlts [mLitCI "S.No", mLitCI "Rs.", mSeqs [mLitCI "PAY", ws1, mLitCI "+"]],
    mAlts [mLitCI "Whether", mWordsEnd ["Single"], mWordsEnd ["Designation"]],
    mAlts [mLitCI "RSVP:", mWords ["CLOSED", "TOED"]],
    mAlts [mWords ["Join", "and", "actively"], mWords ["Either", "participate"]],
    mAlts [mWords ["science", "course"], mWordsEnd ["Goals"]],
    mSeqs [digits1, mLitCI ".", ws1, mWords ["Amount", "of", "advance"]],
    mWords ["Application", "form", "for", "grant"],
    mWordsEnd ["Overview"],
    mSeqs [mLitCI "Version", ws1, digits1, mLitCI ".", digits1],
    mWords ["International", "Software", "Testing"],
    mLitCI "WWW.",
    mSeqs [mPlusCls (· = '-'), mEnd] ]

/-- The detector's `common_words` stop-word list. -/
def commonWords10 : List String :=
  ["the", "and", "of", "to", "in", "for", "with", "on", "at", "by"]

/-- `sum(1 for word in common_words if word in text.lower().split())`. -/
def stopWordCount10 (text : String) : Nat :=
  (commonWords10.filter (fun w => (pySplit (pyLower text)).contains w)).length

/-- `HeadingDetector._should_skip_text`. -/
def shouldSkipText (text : String) : Bool :=
  if text.length < 3 ∨ text.length > 150 then true
  else if skipPatterns.any (fun m => reMatch m text) then true
  else if stopWordCount10 text ≥ 3 ∧ text.length > 40 then true
  else false

/-- First dict entry whose key equals `t` (Python `text in dict` lookup). -/
def exactLookup (t : String) : Option (HLevel × Int) :=
  (exactHeadingMatches.find? (fun e => e.1 = t)).map (·.2)

/-- The fallback loop of `_match_exact_heading`: compare the
whitespace-normalized text with each normalized dict key in insertion
order. -/
def findNormalized (n : String) : List (String × HLevel × Int) → Option (HLevel × Int)
  | [] => none
  | (k, lp) :: rest =>
    if n = collapseWs (pyStrip k) then some lp else findNormalized n rest

/-- `HeadingDetector._match_exact_heading`.  The `page` argument is part of
the Python signature but is never read by the function body. -/
def matchExactHeading (text : String) (page : Int) : Option (HLevel × Int) :=
  match exactLookup text with
  | some lp => some lp
  | none => findNormalized (collapseWs (pyStrip text)) exactHeadingMatches

/-- `HeadingDetector._match_flexible_patterns` (the `page` argument is
likewise unread). -/
def matchFlexiblePatterns (text : String) (page : Int) : Option (HLevel × Int) :=
  (flexiblePatterns.find? (fun e => reMatch e.1 text)).map (·.2)

/-- Deterministic greedy matcher for the OCR-fix pattern
`HOPE\s+To\s+SEE\s+Y\s+ou\s+T\s+HERE\s*!?` (case-sensitive).  Returns the
remainder after the match.  Greedy maximal-munch is exact here because
every starred class (`\s`) is disjoint from the literal that follows it. -/
def matchHope (s : List Char) : Option (List Char) := Id.run do
  let some s := (mLit "HOPE" s).head? | return none
  let some s := (match s with
    | c :: r => if pySpace c then some (r.dropWhile pySpace) else none
    | [] => none) | return none
  let some s := (mLit "To" s).head? | return none
  let some s := (match s with
    | c :: r => if pySpace c then some (r.dropWhile pySpace) else none
    | [] => none) | return none
  let some s := (mLit "SEE" s).head? | return none
  let some s := (match s with
    | c :: r => if pySpace c then some (r.dropWhile pySpace) else none
    | [] => none) | return none
  let some s := (mLit "Y" s).head? | return none
  let some s := (match s with
    | c :: r => if pySpace c then some (r.dropWhile pySpace) else none
    | [] => none) | return none
  let some s := (mLit "ou" s).head? | return none
  let some s := (match s with
    | c :: r => if pySpace c then some (r.dropWhile pySpace) else none
    | [] => none) | return none
  let some s := (mLit "T" s).head? | return none
  let some s := (match s with
    | c :: r => if pySpace c then some (r.dropWhile pySpace) else none
    | [] => none) | return none
  let some s := (mLit "HERE" s).head? | return none
  let s := s.dropWhile pySpace
  match s with
  | '!' :: r => return some r
  | _ => return some s

/-- Replacement text of the OCR fix. -/
def hopeReplacement : List Char := "HOPE To SEE You THERE!".toList

/-- Left-to-right scanning `re.sub` for the OCR-fix pattern.  Each match
consumes at least one character, so `fuel = length` suffices exactly. -/
def fixOcrAux : Nat → List Char → List Char
  | 0, s => s
  | _ + 1, [] => []
  | n + 1, c :: r =>
    match matchHope (c :: r) with
    | some rest => hopeReplacement ++ fixOcrAux n rest
    | none => c :: fixOcrAux n r

/-- `re.sub(r'HOPE\s+To\s+SEE\s+Y\s+ou\s+T\s+HERE\s*!?', 'HOPE To SEE You THERE!', text)`. -/
def fixOcrHope (s : String) : String :=
  String.mk (fixOcrAux s.toList.length s.toList)

/-- `HeadingDetector._clean_heading_text`. -/
def cleanHeadingText (text : String) : String :=
  let t1 := pyStrip (collapseWs text)
  let t2 := fixOcrHope t1
  let t3 :=
    if pyContains (pyLower t2) "timeline" && !(pyEndsWith t2 ":") then t2 ++ ":"
    else if (["access", "guidance", "training"].any
               (fun p => pyContains (pyLower t2) p)) && !(pyEndsWith t2 ":") then
      -- the inner guard: simple headers (no "for"/"the"/"and" substring) get colons
      if !(["for", "the", "and"].any (fun w => pyContains (pyLower t2) w)) then
        t2 ++ ":"
      else t2
    else t2
  if t3 = "Application form for grant of LTC advance" ||
     t3 = "Overview Foundation Level Extensions" then t3 ++ "  " else t3

/-- The deduplication loop of `_finalize_headings`: keep the first
occurrence of each `(text, page)` key, preserving order. -/
def dedupHeadings (seen : List (String × Int)) : List Heading → List Heading
  | [] => []
  | h :: rest =>
    if (h.text, h.page) ∈ seen then dedupHeadings seen rest
    else h :: dedupHeadings ((h.text, h.page) :: seen) rest

/-- Stable insertion step for the ascending sort by page.  An element is
placed before the first existing element with a strictly larger key, after
all elements with a smaller-or-equal key inserted earlier — the unique
stable ascending order, which is what Python's stable `list.sort` returns. -/
def insertByPage (h : Heading) : List Heading → List Heading
  | [] => [h]
  | y :: ys => if y.page < h.page then y :: insertByPage h ys else h :: y :: ys

/-- `unique_headings.sort(key=lambda h: h["page"])`: stable ascending sort
by page (stable sorts by a fixed key are unique as functions, so insertion
sort is exactly Python's Timsort here). -/
def sortByPage (l : List Heading) : List Heading := l.foldr insertByPage []

/-- `HeadingDetector._finalize_headings`. -/
def finalizeHeadings (headings : List Heading) : List Heading :=
  if headings.isEmpty then []
  else sortByPage (dedupHeadings [] headings)

/-- The per-fragment loop body of `detect_headings`, iterated over the
input list. -/
def detectLoop : List TextFragment → List Heading
  | [] => []
  | e :: rest =>
    let text := pyStrip e.text
    if shouldSkipText text then detectLoop rest
    else
      match (matchExactHeading text e.page).orElse
          (fun _ => matchFlexiblePatterns text e.page) with
      | some (level, expectedPage) =>
        let cleaned := cleanHeadingText text
        if cleaned ≠ "" then
          { level := level, text := cleaned, page := expectedPage } :: detectLoop rest
        else detectLoop rest
      | none => detectLoop rest

/-- `HeadingDetector.detect_headings`. -/
def detectHeadings (text_elements : List TextFragment) : List Heading :=
  if text_elements.isEmpty then []
  else finalizeHeadings (detectLoop text_elements)

/-! ## `pdf_processor.py`: fragment filter -/

/-- The `artifact_patterns` of `PDFProcessor._is_page_artifact`, matched
with `re.match` + `re.IGNORECASE`. -/
def artifactPatterns : List Matcher :=
  [ mSeqs [ws0, digits1, ws0, mEnd],
    mSeqs [mLitCI "Page", ws1, digits1],
    mSeqs [mLitCI "©", ws0, mCls Char.isDigit, mCls Char.isDigit,
      mCls Char.isDigit, mCls Char.isDigit],
    mLitCI "Copyright",
    mAlts [mLitCI "www.", mLitCI "http"],
    mSeqs [mPlusCls pyWordChar, mLitCI "@", mPlusCls pyWordChar, mLitCI ".",
      mPlusCls pyWordChar],
    mSeqs [mCls Char.isDigit, mOpt (mCls Char.isDigit),
      mCls (fun c => c = '/' || c = '-'), mCls Char.isDigit,
      mOpt (mCls Char.isDigit), mCls (fun c => c = '/' || c = '-'),
      mCls Char.isDigit, mCls Char.isDigit, mOpt (mCls Char.isDigit),
      mOpt (mCls Char.isDigit)],
    mSeqs [mLitCI "Figure", ws1, digits1],
    mSeqs [mLitCI "Table", ws1, digits1],
    mSeqs [mLitCI "Chart", ws1, digits1] ]

/-- `PDFProcessor._is_page_artifact`. -/
def isPageArtifact (text : String) : Bool :=
  artifactPatterns.any (fun m => reMatch m text)

/-- The lettered-list-marker pattern `^[a-z]\)` of `_is_body_text`, matched
case-sensitively (no flag on that `re.match`). -/
def lowerListMarker : Matcher :=
  mSeqs [mCls (fun c => 'a' ≤ c && c ≤ 'z'), mLit ")"]

/-- `PDFProcessor._is_body_text`. -/
def isBodyText (text : String) : Bool :=
  if pyCountChar text '.' ≥ 2 ∧ text.length > 50 then true
  else if stopWordCount10 text ≥ 3 ∧ text.length > 40 then true
  else if pyIsLower text ∧ ¬ (reMatch lowerListMarker text) then true
  else false

/-- The keep-predicate corresponding to the `continue` chain of
`_filter_heading_candidates`. -/
def keepCandidate (e : TextFragment) : Bool :=
  let text := pyStrip e.text
  if text.length < 3 then false
  else if isPageArtifact text then false
  else if text.length > 250 then false
  else if isBodyText text then false
  else true

/-- `PDFProcessor._filter_heading_candidates`: the loop appends exactly the
elements whose text passes every check, in order. -/
def filterHeadingCandidates (elements : List TextFragment) : List TextFragment :=
  elements.filter keepCandidate

/-! ## `pdf_processor.py`: title selection

The fitz page structure consumed by `_extract_title` is modelled verbatim:
a page is a list of blocks, a block an optional list of lines (a block
without a `"lines"` key is one with `lines = none`) plus a bbox, a line a
list of spans, and a span carries `text`, `size`, `flags`, `font`. -/

/-- One fitz text span. -/
structure Span where
  text : String
  size : ℚ := 12
  flags : Nat := 0
  font : String := ""
deriving DecidableEq, Repr

/-- One fitz line. -/
structure Line where
  spans : List Span
  bbox : List ℚ := [0, 0, 0, 0]
deriving DecidableEq, Repr

/-- One fitz block. -/
structure Block where
  bbox : List ℚ := [0, 0, 0, 0]
  lines : Option (List Line) := none
deriving DecidableEq, Repr

/-- A table-of-contents entry as returned by `doc.get_toc()`:
`[level, title, page]`. -/
structure TocEntry where
  lvl : Int
  title : String
  page : Int
deriving DecidableEq, Repr

/-- The document surface `_extract_title` reads: the metadata title (with
`none` for a missing/absent field), the per-page block lists, and the table
of contents. -/
structure Document where
  metaTitle : Option String := none
  pages : List (List Block) := []
  toc : List TocEntry := []
deriving DecidableEq, Repr

/-- The `generic_patterns` of `_is_generic_metadata_title`
(`re.match` + `re.IGNORECASE`). -/
def genericTitlePatterns : List Matcher :=
  [ mWords ["Microsoft", "Word"],
    mSeqs [mLitCI "Document", mStarCls Char.isDigit, mEnd],
    mLitCI "Untitled",
    mSeqs [mLitCI ".pdf", mEnd],
    mSeqs [mPlusCls pyWordChar, mLitCI ".pdf", mEnd],
    mSeqs [mLitCI "Page", ws1, digits1],
    mLitCI "Draft",
    mSeqs [mLitCI "Copy", ws1, mLitCI "of"] ]

/-- `PDFProcessor._is_generic_metadata_title`. -/
def isGenericMetadataTitle (title : String) : Bool :=
  genericTitlePatterns.any (fun m => reMatch m title)

/-- `re.sub(r'^(Document:|Report:|Title:)\s*', '', title, flags=IGNORECASE)`:
the anchor makes at most one leftmost replacement possible. -/
def stripTitleLabel (t : String) : String :=
  let cs := t.toList
  let tryOne (w : String) : Option (List Char) :=
    if (cs.take w.length).map Char.toLower = w.toList.map Char.toLower then
      some ((cs.drop w.length).dropWhile pySpace)
    else none
  match tryOne "Document:" with
  | some r => String.mk r
  | none =>
    match tryOne "Report:" with
    | some r => String.mk r
    | none =>
      match tryOne "Title:" with
      | some r => String.mk r
      | none => t

/-- `re.sub(r'^Microsoft\s+Word\s*-\s*', '', title, flags=IGNORECASE)`:
greedy maximal munch is exact (each starred class is disjoint from what
follows). -/
def stripMsWordLabel (t : String) : String :=
  let cs := t.toList
  let step : Option (List Char) := Id.run do
    let some s := (mLitCI "Microsoft" cs).head? | return none
    let some s := (match s with
      | c :: r => if pySpace c then some (r.dropWhile pySpace) else none
      | [] => none) | return none
    let some s := (mLitCI "Word" s).head? | return none
    let s := s.dropWhile pySpace
    let some s := (mLit "-" s).head? | return none
    return some (s.dropWhile pySpace)
  match step with
  | some r => String.mk r
  | none => t

/-- `re.sub(r'[.]{2,}$|^\s*[.]+\s*', '', title)`.  Scanning left to right:
the first alternative fires at a position exactly when everything from
there to the end is dots (≥ 2); the second alternative is `^`-anchored so
it can fire only at position 0.  The net effect is: if the whole string is
dots (≥ 2) it is erased; otherwise an optional leading `\s*[.]+\s*` run is
erased, and then a trailing all-dots run (≥ 2) is erased. -/
def stripDotArtifacts (t : String) : String :=
  let cs := t.toList
  if !cs.isEmpty && cs.all (· = '.') && cs.length ≥ 2 then ""
  else
    let cs2 :=
      let afterWs := cs.dropWhile pySpace
      if afterWs.head? = some '.' then
        (afterWs.dropWhile (· = '.')).dropWhile pySpace
      else cs
    let rev := cs2.reverse
    if (rev.takeWhile (· = '.')).length ≥ 2 then
      String.mk (rev.dropWhile (· = '.')).reverse
    else String.mk cs2

/-- `re.sub(r'\s*\.pdf\s*$', '', title, flags=IGNORECASE)`: remove one
trailing `.pdf` together with surrounding whitespace. -/
def stripPdfSuffix (t : String) : String :=
  let rev := t.toList.reverse
  let r1 := rev.dropWhile pySpace
  if (r1.take 4).map Char.toLower = ['f', 'd', 'p', '.'] then
    String.mk ((r1.drop 4).dropWhile pySpace).reverse
  else t

/-- `PDFProcessor._clean_title_text`. -/
def cleanTitleText (title : String) : String :=
  let t := pyStrip (collapseWs title)
  let t := stripTitleLabel t
  let t := stripMsWordLabel t
  let t := stripDotArtifacts t
  let t := stripPdfSuffix t
  pyStrip t

/-- The artifact regex of `_calculate_title_score`:
`^\d+$|^Page\s+|^©|^www\.|^http|^\s*\d+\s*$|^[A-Z]{1,3}\s*$`
(`re.search` + `re.IGNORECASE`; every branch is `^`-anchored, so searching
equals matching at the start). -/
def scoreArtifactPattern : Matcher :=
  mAlts
    [ mSeqs [digits1, mEnd],
      mSeqs [mLitCI "Page", ws1],
      mLitCI "©",
      mLitCI "www.",
      mLitCI "http",
      mSeqs [ws0, digits1, ws0, mEnd],
      mSeqs [mCls asciiAlpha, mOpt (mCls asciiAlpha), mOpt (mCls asciiAlpha),
        ws0, mEnd] ]

/-- The `title_indicators` of `_calculate_title_score`
(`re.search` + `re.IGNORECASE`). -/
def titleIndicatorPatterns : List (Matcher × Bool) :=
  -- the Bool records whether the pattern is start-anchored (search at 0)
  [ (mAlts ((["RFP", "Request", "Understanding", "Introduction", "Overview",
      "Application", "Report", "Analysis", "Study", "Guide",
      "Manual"]).map mLitCI), true),
    (mAlts (((["Report", "Analysis", "Study", "Guide", "Manual", "Plan",
      "Strategy", "Framework", "Policy",
      "Proposal"]).map mLitCI).map (fun m => mSeqs [m, mEnd])), false),
    (mSeqs [mLitCI ":", ws0, mCls asciiAlpha], false) ]

/-- The second `common_words` list (the one of `_calculate_title_score`,
which additionally holds `"a"` and `"an"`). -/
def commonWords12 : List String :=
  ["the", "and", "of", "to", "in", "for", "with", "on", "at", "by", "a", "an"]

/-- `sum(1 for word in common_words if word in text.lower().split())` over
the 12-word list. -/
def stopWordCount12 (text : String) : Nat :=
  (commonWords12.filter (fun w => (pySplit (pyLower text)).contains w)).length

/-- `PDFProcessor._calculate_title_score`.  `bbox[1] if len(bbox) > 1 else 0`
is `(bbox.get? 1).getD 0`. -/
def calculateTitleScore (span : Span) (text : String) (block : Block) : ℚ :=
  let score : ℚ := 0
  let score := score +
    (if span.size ≥ 18 then 40
     else if span.size ≥ 16 then 30
     else if span.size ≥ 14 then 20
     else span.size)
  let y_pos := (block.bbox.get? 1).getD 0
  let score := score + (if y_pos < 150 then 30 else if y_pos < 300 then 15 else 0)
  let score := score + (if span.flags.testBit 4 then 20 else 0)
  let score := score + (if span.flags.testBit 1 then 5 else 0)
  let text_len := text.length
  let score := score +
    (if 10 ≤ text_len ∧ text_len ≤ 80 then 15
     else if text_len > 150 then -20
     else if text_len < 5 then -10
     else 0)
  let score := score + (if reMatch scoreArtifactPattern text then -50 else 0)
  let score := score +
    (if titleIndicatorPatterns.any
        (fun p => if p.2 then reMatch p.1 text else reSearch p.1 text)
     then 15 else 0)
  let score := score + (if pyCountChar text '.' ≥ 2 then -25 else 0)
  let score := score + (if stopWordCount12 text ≥ 4 then -15 else 0)
  score

/-- The `title_patterns` of `_looks_like_title`
(`re.match` + `re.IGNORECASE`). -/
def looksLikeTitlePatterns : List Matcher :=
  [ mSeqs [mCls asciiAlpha, mStarCls (· ≠ '.'), mCls (· ≠ '.'), mEnd],
    mSeqs [dotStar, mLitCI ":", ws0, mCls asciiAlpha, dotStar],
    mAlts ((["RFP", "Request", "Application", "Report", "Analysis", "Study",
      "Guide", "Manual", "Plan", "Strategy"]).map mLitCI),
    mSeqs [dotStar,
      mAlts ((["Report", "Analysis", "Study", "Guide", "Manual", "Plan",
        "Strategy", "Framework", "Policy", "Proposal"]).map mLitCI),
      dotStar] ]

/-- `PDFProcessor._looks_like_title`.  After the title-pattern loop the
source walks a `non_title_patterns` list, but both that loop's `return
False` and the final fall-through return `False`, so the net value is
"length in range and some title pattern matches". -/
def looksLikeTitle (text : String) : Bool :=
  if !(5 ≤ text.length ∧ text.length ≤ 150) then false
  else looksLikeTitlePatterns.any (fun m => reMatch m text)

/-- Strategy 1 of `_extract_title`: the metadata title. -/
def titleFromMetadata (doc : Document) : Option String :=
  match doc.metaTitle with
  | none => none
  | some t =>
    if t ≠ "" then
      let mt := pyStrip t
      if mt ≠ "" ∧ mt.length > 3 ∧ ¬ isGenericMetadataTitle mt then
        some (cleanTitleText mt)
      else none
    else none

/-- The candidate collection of strategy 2: every span of the first page
whose stripped text is nonempty and longer than 3, scored; kept when the
score exceeds 15. -/
def titleCandidates (page1 : List Block) : List (String × ℚ) :=
  page1.flatMap (fun block =>
    match block.lines with
    | none => []
    | some lines =>
      lines.flatMap (fun line =>
        line.spans.filterMap (fun span =>
          let text := pyStrip span.text
          if text ≠ "" ∧ text.length > 3 then
            let score := calculateTitleScore span text block
            if score > 15 then some (text, score) else none
          else none)))

/-- Stable insertion step for the descending sort of candidates by score
(`title_candidates.sort(key=lambda x: x[1], reverse=True)`). -/
def insertByScoreDesc (c : String × ℚ) :
    List (String × ℚ) → List (String × ℚ)
  | [] => [c]
  | y :: ys =>
    if y.2 > c.2 then y :: insertByScoreDesc c ys else c :: y :: ys

/-- Stable descending sort by score (unique as a function, hence equal to
Python's stable sort with `reverse=True`). -/
def sortByScoreDesc (l : List (String × ℚ)) : List (String × ℚ) :=
  l.foldr insertByScoreDesc []

/-- Strategy 2 of `_extract_title`: best-scoring first-page span. -/
def titleFromFirstPage (doc : Document) : Option String :=
  match doc.pages.head? with
  | none => none
  | some page1 =>
    let cands := titleCandidates page1
    if !cands.isEmpty then
      match (sortByScoreDesc cands).head? with
      | none => none
      | some best =>
        let cleaned := cleanTitleText best.1
        if cleaned.length > 5 then some cleaned else none
    else none

/-- Strategy 3 of `_extract_title`: first table-of-contents entry.  A fitz
TOC row always has the three fields `[lvl, title, page]`, so the source's
`len(first_toc) >= 2` guard is always true in the model. -/
def titleFromToc (doc : Document) : Option String :=
  match doc.toc.head? with
  | none => none
  | some first =>
    let tocTitle := pyStrip first.title
    if 5 ≤ tocTitle.length ∧ tocTitle.length ≤ 100 then
      some (cleanTitleText tocTitle)
    else none

/-- Strategy 4 of `_extract_title`: first early first-page span that looks
like a title. -/
def titleFromPatterns (doc : Document) : Option String :=
  match doc.pages.head? with
  | none => none
  | some page1 =>
    let allTexts := (page1.take 10).flatMap (fun block =>
      match block.lines with
      | none => []
      | some lines =>
        lines.flatMap (fun line =>
          line.spans.filterMap (fun span =>
            let text := pyStrip span.text
            if text ≠ "" ∧ text.length > 5 then some text else none)))
    ((allTexts.take 5).find? looksLikeTitle).map cleanTitleText

/-- `PDFProcessor._extract_title`: the ordered fallback chain. -/
def extractTitle (doc : Document) : String :=
  if doc.pages.length = 0 then ""
  else
    match titleFromMetadata doc with
    | some t => t
    | none =>
      match titleFromFirstPage doc with
      | some t => t
      | none =>
        match titleFromToc doc with
        | some t => t
        | none =>
          match titleFromPatterns doc with
          | some t => t
          | none => ""

/-! ## Spec-side definitions

These definitions are written from the specification's and claims' words
(not from the code); theorems below compare the code's behaviour against
them. -/

/-- Claim C2's key: "normalization is lowercasing plus collapsing
whitespace runs of the trimmed text", paired with the page. -/
def specNormKey (h : Heading) : String × Int :=
  (pyLower (collapseWs (pyStrip h.text)), h.page)

/-- Claim C3's order predicate: adjacent pages non-decreasing and, on equal
pages, non-decreasing level rank. -/
def specPageLevelOrdered : List Heading → Bool
  | a :: b :: r =>
    (decide (a.page ≤ b.page) &&
      (!(decide (a.page = b.page)) ||
        decide (levelRank a.level ≤ levelRank b.level))) &&
    specPageLevelOrdered (b :: r)
  | _ => true

/-- Sentence-terminating periods (claim C5's words): occurrences of `'.'`
followed by whitespace or standing at the end of the text. -/
def specSentencePeriods : List Char → Nat
  | [] => 0
  | c :: r =>
    (if c = '.' ∧ (r.head?.elim true pySpace) then 1 else 0)
      + specSentencePeriods r

/-- Claim C5's body-text shape: at least 3 of the fixed stop-word set as
whole (whitespace-delimited) words and length over 40, or at least 2
sentence-terminating periods and length over 50. -/
def specBodyShape (t : String) : Prop :=
  (3 ≤ ((["the", "and", "of", "to", "in", "for", "with", "on", "at",
      "by"]).filter (fun w => (pySplit (pyLower t)).contains w)).length
    ∧ 40 < t.length)
  ∨ (2 ≤ specSentencePeriods t.toList ∧ 50 < t.length)

instance (t : String) : Decidable (specBodyShape t) := by
  unfold specBodyShape; infer_instance

/-- Claim C8's artifact shapes: bare number, `Page N`, URL. -/
def specTitleArtifact (t : String) : Bool :=
  (!t.toList.isEmpty && t.toList.all Char.isDigit) ||
  reMatch (mSeqs [mLitCI "Page", ws1, digits1]) t ||
  reMatch (mAlts [mLitCI "www.", mLitCI "http"]) t

/-- Claim C8's leading keywords. -/
def specLeadingKeyword (t : String) : Bool :=
  (["RFP", "Request", "Introduction", "Overview", "Application"]).any
    (fun w => reMatch (mLitCI w) t)

/-- Claim C8's claimed scoring formula: `2×font_size` plus the claimed
position/weight/length bonuses and artifact/keyword adjustments. -/
def specTitleScore (span : Span) (text : String) (block : Block) : ℚ :=
  2 * span.size
  + (if (block.bbox.get? 1).getD 0 < 100 then 50
     else if (block.bbox.get? 1).getD 0 < 200 then 30 else 0)
  + (if span.flags.testBit 4 then 25 else 0)
  + (if span.flags.testBit 1 then 10 else 0)
  + (if 10 ≤ text.length ∧ text.length ≤ 100 then 20 else 0)
  + (if 200 < text.length then -30 else 0)
  + (if specTitleArtifact text then -100 else 0)
  + (if specLeadingKeyword text then 30 else 0)

/-- Font-size component of the corrected (amended C8) scoring formula. -/
def amendedSizeBonus (size : ℚ) : ℚ :=
  if size ≥ 18 then 40 else if size ≥ 16 then 30
  else if size ≥ 14 then 20 else size

/-- Position component of the corrected scoring formula. -/
def amendedPositionBonus (y : ℚ) : ℚ :=
  if y < 150 then 30 else if y < 300 then 15 else 0

/-- Bold/italic component of the corrected scoring formula. -/
def amendedWeightBonus (flags : Nat) : ℚ :=
  (if flags.testBit 4 then 20 else 0) + (if flags.testBit 1 then 5 else 0)

/-- Length component of the corrected scoring formula. -/
def amendedLengthBonus (n : Nat) : ℚ :=
  if 10 ≤ n ∧ n ≤ 80 then 15
  else if n > 150 then -20 else if n < 5 then -10 else 0

/-- Text-content component of the corrected scoring formula: artifact
penalty −50, title-indicator bonus +15, multi-period penalty −25,
stop-word penalty −15. -/
def amendedContentAdjust (text : String) : ℚ :=
  (if reMatch scoreArtifactPattern text then -50 else 0)
  + (if titleIndicatorPatterns.any
        (fun p => if p.2 then reMatch p.1 text else reSearch p.1 text)
     then 15 else 0)
  + (if pyCountChar text '.' ≥ 2 then -25 else 0)
  + (if stopWordCount12 text ≥ 4 then -15 else 0)

/-- The corrected (amended C8) scoring formula as a plain sum of its
components. -/
def amendedTitleScore (span : Span) (text : String) (block : Block) : ℚ :=
  amendedSizeBonus span.size
  + amendedPositionBonus ((block.bbox.get? 1).getD 0)
  + amendedWeightBonus span.flags
  + amendedLengthBonus text.length
  + amendedContentAdjust text

/-! ## Helper lemmas -/

theorem insertByPage_perm (h : Heading) (l : List Heading) :
    List.Perm (insertByPage h l) (h :: l) := by
  induction l with
  | nil => exact List.Perm.refl _
  | cons y ys ih =>
    simp only [insertByPage]
    split
    · exact (ih.cons y).trans (List.Perm.swap h y ys)
    · exact List.Perm.refl _

theorem sortByPage_perm (l : List Heading) : List.Perm (sortByPage l) l := by
  induction l with
  | nil => exact List.Perm.refl _
  | cons h t ih =>
    exact (insertByPage_perm h (sortByPage t)).trans (ih.cons h)

theorem insertByPage_pairwise {h : Heading} {l : List Heading}
    (hl : l.Pairwise (fun a b => a.page ≤ b.page)) :
    (insertByPage h l).Pairwise (fun a b => a.page ≤ b.page) := by
  induction l with
  | nil => simp [insertByPage]
  | cons y ys ih =>
    rcases List.pairwise_cons.mp hl with ⟨hy, hys⟩
    simp only [insertByPage]
    split
    · rename_i hlt
      refine List.pairwise_cons.mpr ⟨?_, ih hys⟩
      intro z hz
      rcases List.mem_cons.mp ((insertByPage_perm h ys).mem_iff.mp hz) with hzh | hzys
      · exact hzh ▸ le_of_lt hlt
      · exact hy z hzys
    · rename_i hge
      refine List.pairwise_cons.mpr ⟨?_, hl⟩
      intro z hz
      rcases List.mem_cons.mp hz with hzy | hzys
      · exact hzy ▸ le_of_not_lt hge
      · exact le_trans (le_of_not_lt hge) (hy z hzys)

theorem sortByPage_pairwise (l : List Heading) :
    (sortByPage l).Pairwise (fun a b => a.page ≤ b.page) := by
  induction l with
  | nil => simp [sortByPage]
  | cons h t ih => exact insertByPage_pairwise ih

theorem dedupHeadings_spec (l : List Heading) : ∀ seen : List (String × Int),
    (dedupHeadings seen l).Pairwise
      (fun a b => (a.text, a.page) ≠ (b.text, b.page))
    ∧ ∀ h ∈ dedupHeadings seen l, (h.text, h.page) ∉ seen := by
  induction l with
  | nil => intro seen; simp [dedupHeadings]
  | cons h t ih =>
    intro seen
    simp only [dedupHeadings]
    split
    · exact ih seen
    · rename_i hnot
      refine ⟨List.pairwise_cons.mpr ⟨?_, (ih _).1⟩, ?_⟩
      · intro b hb hkey
        exact (ih ((h.text, h.page) :: seen)).2 b hb
          (hkey ▸ List.mem_cons_self _ _)
      · intro g hg
        rcases List.mem_cons.mp hg with hgh | hgt
        · exact hgh ▸ hnot
        · exact fun hs => (ih _).2 g hgt (List.mem_cons_of_mem _ hs)

theorem dedupHeadings_sublist (l : List Heading) :
    ∀ seen, (dedupHeadings seen l).Sublist l := by
  induction l with
  | nil => intro seen; simp [dedupHeadings]
  | cons h t ih =>
    intro seen
    simp only [dedupHeadings]
    split
    · exact (ih seen).cons h
    · exact (ih _).cons₂ h

theorem finalizeHeadings_pairwise_keys (d : List Heading) :
    (finalizeHeadings d).Pairwise
      (fun a b => (a.text, a.page) ≠ (b.text, b.page)) := by
  unfold finalizeHeadings
  split
  · simp
  · exact ((dedupHeadings_spec d []).1).perm
      (sortByPage_perm (dedupHeadings [] d)).symm (fun hab => Ne.symm hab)

theorem finalizeHeadings_sorted (d : List Heading) :
    (finalizeHeadings d).Pairwise (fun a b => a.page ≤ b.page) := by
  unfold finalizeHeadings
  split
  · simp
  · exact sortByPage_pairwise _

theorem finalizeHeadings_mem {d : List Heading} {h : Heading}
    (hm : h ∈ finalizeHeadings d) : h ∈ d := by
  unfold finalizeHeadings at hm
  split at hm
  · simp at hm
  · exact (dedupHeadings_sublist d []).mem
      ((sortByPage_perm (dedupHeadings [] d)).mem_iff.mp hm)

theorem finalizeHeadings_length (d : List Heading) :
    (finalizeHeadings d).length ≤ d.length := by
  unfold finalizeHeadings
  split
  · simp
  · calc (sortByPage (dedupHeadings [] d)).length
        = (dedupHeadings [] d).length := (sortByPage_perm _).length_eq
      _ ≤ d.length := (dedupHeadings_sublist d []).length_le

/-- The combined exact-then-flexible match performed by `detect_headings`
on one fragment. -/
def headingMatch (text : String) (page : Int) : Option (HLevel × Int) :=
  (matchExactHeading text page).orElse
    (fun _ => matchFlexiblePatterns text page)

theorem detectLoop_cons (e : TextFragment) (t : List TextFragment) :
    detectLoop (e :: t) =
      if shouldSkipText (pyStrip e.text) then detectLoop t
      else
        match headingMatch (pyStrip e.text) e.page with
        | some (level, expectedPage) =>
          if cleanHeadingText (pyStrip e.text) ≠ "" then
            { level := level, text := cleanHeadingText (pyStrip e.text),
              page := expectedPage } :: detectLoop t
          else detectLoop t
        | none => detectLoop t := rfl

theorem detectLoop_length (l : List TextFragment) :
    (detectLoop l).length ≤ l.length := by
  induction l with
  | nil => simp [detectLoop]
  | cons e t ih =>
    rw [detectLoop_cons]
    split
    · exact ih.trans (Nat.le_succ _)
    · split
      · split
        · simpa using Nat.succ_le_succ ih
        · exact ih.trans (Nat.le_succ _)
      · exact ih.trans (Nat.le_succ _)

theorem detectLoop_mem {l : List TextFragment} {h : Heading}
    (hm : h ∈ detectLoop l) :
    ∃ e ∈ l, headingMatch (pyStrip e.text) e.page = some (h.level, h.page)
      ∧ h.text = cleanHeadingText (pyStrip e.text) := by
  induction l with
  | nil => simp [detectLoop] at hm
  | cons e t ih =>
    rw [detectLoop_cons] at hm
    split at hm
    · rcases ih hm with ⟨f, hf, hrest⟩
      exact ⟨f, List.mem_cons_of_mem _ hf, hrest⟩
    · split at hm
      · rename_i level expectedPage heq
        split at hm
        · rcases List.mem_cons.mp hm with hh | hh
          · refine ⟨e, List.mem_cons_self _ _, ?_, ?_⟩
            · rw [heq, hh]
            · rw [hh]
          · rcases ih hh with ⟨f, hf, hrest⟩
            exact ⟨f, List.mem_cons_of_mem _ hf, hrest⟩
        · rcases ih hm with ⟨f, hf, hrest⟩
          exact ⟨f, List.mem_cons_of_mem _ hf, hrest⟩
      · rcases ih hm with ⟨f, hf, hrest⟩
        exact ⟨f, List.mem_cons_of_mem _ hf, hrest⟩

theorem headingMatch_page_irrel (t : String) (p p' : Int) :
    headingMatch t p = headingMatch t p' := rfl

theorem detectLoop_congr : ∀ {l₁ l₂ : List TextFragment},
    List.Forall₂ (fun a b => a.text = b.text) l₁ l₂ →
    detectLoop l₁ = detectLoop l₂ := by
  intro l₁ l₂ hf
  induction hf with
  | nil => rfl
  | cons hab htail ih =>
    rename_i a b t₁ t₂
    rw [detectLoop_cons, detectLoop_cons, hab, ih,
      headingMatch_page_irrel (pyStrip b.text) a.page b.page]

theorem detectHeadings_congr {l₁ l₂ : List TextFragment}
    (hf : List.Forall₂ (fun a b => a.text = b.text) l₁ l₂) :
    detectHeadings l₁ = detectHeadings l₂ := by
  unfold detectHeadings
  rw [detectLoop_congr hf]
  rcases l₁ with _ | ⟨a, t₁⟩ <;> rcases l₂ with _ | ⟨b, t₂⟩ <;> simp
  · exact absurd hf (by simp)
  · exact absurd hf (by simp)

theorem find?_congr_local {α : Type} (l : List α) (p q : α → Bool)
    (h : ∀ a ∈ l, p a = q a) : l.find? p = l.find? q := by
  induction l with
  | nil => rfl
  | cons x xs ih =>
    simp only [List.find?]
    rw [h x (List.mem_cons_self _ _)]
    split
    · rfl
    · exact ih (fun a ha => h a (List.mem_cons_of_mem _ ha))

theorem insertByScoreDesc_ne_nil (c : String × ℚ) (l : List (String × ℚ)) :
    insertByScoreDesc c l ≠ [] := by
  cases l with
  | nil => simp [insertByScoreDesc]
  | cons y ys =>
    simp only [insertByScoreDesc]
    split <;> simp

theorem sortByScoreDesc_eq_nil_iff (l : List (String × ℚ)) :
    sortByScoreDesc l = [] ↔ l = [] := by
  cases l with
  | nil => simp [sortByScoreDesc]
  | cons x xs =>
    constructor
    · intro h
      exact absurd h (insertByScoreDesc_ne_nil x (sortByScoreDesc xs))
    · intro h
      exact absurd h (by simp)

theorem sortByScoreDesc_head_max (l : List (String × ℚ)) :
    ∀ y ys, sortByScoreDesc l = y :: ys → y ∈ l ∧ ∀ e ∈ l, e.2 ≤ y.2 := by
  induction l with
  | nil => intro y ys h; simp [sortByScoreDesc] at h
  | cons x xs ih =>
    intro y ys h
    have hx : sortByScoreDesc (x :: xs) = insertByScoreDesc x (sortByScoreDesc xs) := rfl
    rw [hx] at h
    cases hs : sortByScoreDesc xs with
    | nil =>
      have hxs : xs = [] := (sortByScoreDesc_eq_nil_iff xs).mp hs
      rw [hs] at h
      simp only [insertByScoreDesc] at h
      cases h
      subst hxs
      exact ⟨List.mem_cons_self _ _, by intro e he; simp at he; rw [he]⟩
    | cons z zs =>
      rcases ih z zs hs with ⟨hzmem, hzmax⟩
      rw [hs] at h
      simp only [insertByScoreDesc] at h
      split at h
      · rename_i hgt
        cases h
        refine ⟨List.mem_cons_of_mem _ hzmem, ?_⟩
        intro e he
        rcases List.mem_cons.mp he with hex | hexs
        · exact hex ▸ le_of_lt hgt
        · exact hzmax e hexs
      · rename_i hle
        cases h
        refine ⟨List.mem_cons_self _ _, ?_⟩
        intro e he
        rcases List.mem_cons.mp he with hex | hexs
        · exact hex ▸ le_refl _
        · exact le_trans (hzmax e hexs) (le_of_not_lt hle)

theorem sortByScoreDesc_head_find (l : List (String × ℚ)) :
    (sortByScoreDesc l).head? =
      l.find? (fun d => l.all (fun e => decide (e.2 ≤ d.2))) := by
  induction l with
  | nil => rfl
  | cons x xs ih =>
    have hx : sortByScoreDesc (x :: xs) = insertByScoreDesc x (sortByScoreDesc xs) := rfl
    rw [hx]
    cases hs : sortByScoreDesc xs with
    | nil =>
      have hxs : xs = [] := (sortByScoreDesc_eq_nil_iff xs).mp hs
      subst hxs
      simp [insertByScoreDesc, List.find?]
    | cons z zs =>
      rcases sortByScoreDesc_head_max xs z zs hs with ⟨hzmem, hzmax⟩
      simp only [insertByScoreDesc]
      split
      · rename_i hgt
        have hpx : ((x :: xs).all (fun e => decide (e.2 ≤ x.2))) = false := by
          apply List.all_eq_false.mpr
          exact ⟨z, List.mem_cons_of_mem _ hzmem, by simpa using hgt⟩
        simp only [List.find?, hpx, List.head?]
        have hcong : xs.find? (fun d => (x :: xs).all (fun e => decide (e.2 ≤ d.2)))
            = xs.find? (fun d => xs.all (fun e => decide (e.2 ≤ d.2))) := by
          apply find?_congr_local
          intro d hd
          by_cases hPd : xs.all (fun e => decide (e.2 ≤ d.2)) = true
          · have hzd : z.2 ≤ d.2 := by
              have := List.all_eq_true.mp hPd z hzmem
              simpa using this
            have hxd : x.2 ≤ d.2 := le_trans (le_of_lt hgt) hzd
            simp only [List.all_cons, hPd, Bool.and_true]
            simpa using hxd
          · have hfalse : xs.all (fun e => decide (e.2 ≤ d.2)) = false := by
              simpa using hPd
            simp [List.all_cons, hfalse]
        rw [hcong, ← ih, hs]
        rfl
      · rename_i hle
        have hpx : ((x :: xs).all (fun e => decide (e.2 ≤ x.2))) = true := by
          apply List.all_eq_true.mpr
          intro e he
          rcases List.mem_cons.mp he with hex | hexs
          · simp [hex]
          · exact decide_eq_true (le_trans (hzmax e hexs) (le_of_not_lt hle))
        simp [List.find?, hpx]

theorem specSentencePeriods_le (cs : List Char) :
    specSentencePeriods cs ≤ (cs.filter (· = '.')).length := by
  induction cs with
  | nil => simp [specSentencePeriods]
  | cons c r ih =>
    have h2 : ((c :: r).filter (· = '.')).length
        = (if c = '.' then 1 else 0) + (r.filter (· = '.')).length := by
      by_cases hc : c = '.' <;> simp [List.filter_cons, hc, Nat.add_comm]
    have h0 : (if c = '.' ∧ (r.head?.elim true pySpace) = true then 1 else 0)
        ≤ (if c = '.' then 1 else 0) := by
      by_cases hc : c = '.'
      · simp only [hc, if_pos rfl]
        split <;> simp
      · simp [hc]
    simp only [specSentencePeriods]
    rw [h2]
    exact Nat.add_le_add h0 ih

theorem bodyShape_isBodyText {t : String} (hs : specBodyShape t) :
    isBodyText t = true := by
  unfold isBodyText
  rcases hs with ⟨hstop, hlen⟩ | ⟨hper, hlen⟩
  · split
    · rfl
    · split
      · rfl
      · rename_i h1 h2
        exact absurd ⟨hstop, hlen⟩ h2
  · split
    · rfl
    · rename_i h1
      exfalso
      apply h1
      refine ⟨?_, hlen⟩
      calc 2 ≤ specSentencePeriods t.toList := hper
        _ ≤ (t.toList.filter (· = '.')).length := specSentencePeriods_le _

theorem keepCandidate_not_bodyShape {e : TextFragment}
    (hk : keepCandidate e = true) : ¬ specBodyShape (pyStrip e.text) := by
  intro hshape
  simp only [keepCandidate] at hk
  split at hk
  · exact absurd hk (by simp)
  · split at hk
    · exact absurd hk (by simp)
    · split at hk
      · exact absurd hk (by simp)
      · split at hk
        · exact absurd hk (by simp)
        · rename_i hbody
          exact hbody (by simpa using bodyShape_isBodyText hshape)

theorem calculateTitleScore_eq_amended (span : Span) (text : String)
    (block : Block) :
    calculateTitleScore span text block = amendedTitleScore span text block := by
  unfold calculateTitleScore amendedTitleScore amendedSizeBonus
    amendedPositionBonus amendedWeightBonus amendedLengthBonus
    amendedContentAdjust
  ring

theorem titleCandidates_score_gt {page1 : List Block} {c : String × ℚ}
    (hc : c ∈ titleCandidates page1) : (15 : ℚ) < c.2 := by
  unfold titleCandidates at hc
  simp only [List.mem_flatMap] at hc
  rcases hc with ⟨block, hb, hc⟩
  cases hl : block.lines with
  | none => rw [hl] at hc; simp at hc
  | some lines =>
    rw [hl] at hc
    simp only [List.mem_flatMap] at hc
    rcases hc with ⟨line, hline, hc⟩
    simp only [List.mem_filterMap] at hc
    rcases hc with ⟨span, hspan, hev⟩
    split at hev
    · split at hev
      · rename_i hscore
        cases hev
        exact hscore
      · exact absurd hev (by simp)
    · exact absurd hev (by simp)

/-! ## Claim theorems -/

/-- **C1, counterexample.**  The claim says the emitted page equals the
input fragment's page.  The single fragment `"Summary"` arriving on page 7
is emitted with page 1 — the hard-coded expected page of the `"Summary"`
entry of `exact_heading_matches` — so the claim is false. -/
theorem c1_counterexample :
    detectHeadings [{ text := "Summary", page := 7 }]
      = [{ level := .H2, text := "Summary", page := 1 }]
    ∧ ({ text := "Summary", page := 7 } : TextFragment).page ≠ (1 : Int) := by
  exact ⟨by decide, by decide⟩

/-- **C1 (amended).**  For every heading in the output of
`detect_headings`, the emitted page (and level) is exactly the
expected-page component stored in the matched entry of the exact-match
table or flexible-pattern table, and the text is the cleaned fragment
text; the fragment's own page field is read but never emitted. -/
theorem c1_page_from_match_table (l : List TextFragment) (h : Heading)
    (hm : h ∈ detectHeadings l) :
    ∃ e ∈ l, headingMatch (pyStrip e.text) e.page = some (h.level, h.page)
      ∧ h.text = cleanHeadingText (pyStrip e.text) := by
  unfold detectHeadings at hm
  split at hm
  · simp at hm
  · exact detectLoop_mem (finalizeHeadings_mem hm)

/-- Witness for C1 (amended) at the `"Summary"` fragment of the
counterexample. -/
theorem c1_witness :
    ∃ e ∈ [({ text := "Summary", page := 7 } : TextFragment)],
      headingMatch (pyStrip e.text) e.page = some (HLevel.H2, (1 : Int))
        ∧ "Summary" = cleanHeadingText (pyStrip e.text) :=
  c1_page_from_match_table [{ text := "Summary", page := 7 }]
    { level := .H2, text := "Summary", page := 1 } (by decide)

/-- **C2, counterexample.**  The claim says no two outline entries share
the same (lowercased collapsed trimmed text, page) key.  The fragments
`"Summary"` (matched by the exact table) and `"SUMMARY"` (matched
case-insensitively by a flexible pattern) both survive the case-sensitive
deduplication, yet their normalized keys coincide. -/
theorem c2_counterexample :
    detectHeadings [{ text := "Summary", page := 3 },
        { text := "SUMMARY", page := 9 }]
      = [{ level := .H2, text := "Summary", page := 1 },
         { level := .H2, text := "SUMMARY", page := 1 }]
    ∧ specNormKey { level := .H2, text := "Summary", page := 1 }
        = specNormKey { level := .H2, text := "SUMMARY", page := 1 } := by
  exact ⟨by decide, by decide⟩

/-- **C2 (amended).**  The deduplication key actually used is the exact
(case-sensitive) cleaned text paired with the page: no two outline entries
share the same `(text, page)` pair. -/
theorem c2_outline_pairwise_exact_keys (l : List TextFragment) :
    (detectHeadings l).Pairwise
      (fun a b => (a.text, a.page) ≠ (b.text, b.page)) := by
  unfold detectHeadings
  split
  · simp
  · exact finalizeHeadings_pairwise_keys _

/-- **C3, counterexample.**  The claim requires non-decreasing level rank
within a page.  The fragments `"Timeline:"` (H3, page 1) and `"Summary"`
(H2, page 1) are both emitted for page 1 in input order, so an H3 precedes
an H2 on the same page: the final sort orders by page only. -/
theorem c3_counterexample :
    detectHeadings [{ text := "Timeline:", page := 1 },
        { text := "Summary", page := 1 }]
      = [{ level := .H3, text := "Timeline:", page := 1 },
         { level := .H2, text := "Summary", page := 1 }]
    ∧ specPageLevelOrdered
        (detectHeadings [{ text := "Timeline:", page := 1 },
          { text := "Summary", page := 1 }]) = false := by
  exact ⟨by decide, by decide⟩

/-- **C3 (amended).**  Adjacent outline entries have non-decreasing pages;
within one page the original detection order is kept (the sort is stable
and keyed on the page alone), not the level rank. -/
theorem c3_pages_monotone (l : List TextFragment) :
    List.Chain' (fun a b => a.page ≤ b.page) (detectHeadings l) := by
  unfold detectHeadings
  split
  · simp
  · exact (finalizeHeadings_sorted _).chain'

/-- **C4 (confirmed).**  The fragment filter is a pure function returning
an order-preserving subsequence of its input, and it is idempotent. -/
theorem c4_filter_idempotent_subsequence (x : List TextFragment) :
    filterHeadingCandidates (filterHeadingCandidates x)
        = filterHeadingCandidates x
    ∧ (filterHeadingCandidates x).Sublist x := by
  refine ⟨?_, List.filter_sublist x⟩
  unfold filterHeadingCandidates
  rw [List.filter_filter]
  simp

/-- **C5 (confirmed).**  Every fragment surviving the filter fails the
spec's body-text shape ("whole word" read as whitespace-delimited token,
"sentence-terminating period" as a period followed by whitespace or at the
end): equivalently the filter drops every fragment matching the shape. -/
theorem c5_filter_drops_body_shape (l : List TextFragment)
    (e : TextFragment) (hm : e ∈ filterHeadingCandidates l) :
    ¬ specBodyShape (pyStrip e.text) :=
  keepCandidate_not_bodyShape (List.mem_filter.mp hm).2

/-- Witness for C5 at a fragment the filter keeps. -/
theorem c5_witness :
    ¬ specBodyShape
        (pyStrip ({ text := "Chapter One", page := 0 } : TextFragment).text) :=
  c5_filter_drops_body_shape [{ text := "Chapter One", page := 0 }]
    { text := "Chapter One", page := 0 } (by decide)

/-- **C6 (confirmed).**  The empty fragment sequence yields an empty
outline, and the title selector returns the empty string on a document
with no pages, whatever its metadata or table of contents. -/
theorem c6_empty_input (md : Option String) (toc : List TocEntry) :
    detectHeadings [] = []
    ∧ extractTitle { metaTitle := md, pages := [], toc := toc } = "" := by
  exact ⟨rfl, rfl⟩

/-- **C7 (confirmed).**  The detection pipeline is total: it is a Lean
function defined on every fragment list, its output never exceeds the
input in length, and it runs to completion on empty strings, pathological
whitespace, and non-Latin text. -/
theorem c7_detect_total_bounded :
    (∀ l : List TextFragment, (detectHeadings l).length ≤ l.length)
    ∧ detectHeadings [{ text := "", page := 5 },
        { text := "   \t\n  ", page := 3 },
        { text := "日本語のテキスト", page := 1 }] = [] := by
  constructor
  · intro l
    unfold detectHeadings
    split
    · simp
    · exact (finalizeHeadings_length _).trans (detectLoop_length l)
  · decide

/-- **C9 (confirmed).**  The single fragment `"PATHWAY OPTIONS"` on page 0
is classified H1 and the outline is exactly that one heading. -/
theorem c9_pathway_options :
    detectHeadings [{ text := "PATHWAY OPTIONS", page := 0 }]
      = [{ level := .H1, text := "PATHWAY OPTIONS", page := 0 }] := by
  decide

/-- **C10 (confirmed).**  Heading detection reads only the text (and,
vacuously, the page) of each fragment: two runs agreeing on every
fragment's text and page produce identical outlines whatever their font
sizes, flags, names, or bounding boxes. -/
theorem c10_font_independent (l₁ l₂ : List TextFragment)
    (hf : List.Forall₂ (fun a b => a.text = b.text ∧ a.page = b.page) l₁ l₂) :
    detectHeadings l₁ = detectHeadings l₂ :=
  detectHeadings_congr (hf.imp (fun a b hab => hab.1))

/-- Witness for C10: the same text/page under wildly different font
attributes. -/
theorem c10_witness :
    detectHeadings [{ text := "PATHWAY OPTIONS", page := 0 }]
      = detectHeadings
          [({ text := "PATHWAY OPTIONS", page := 0, font_size := 99,
              font_flags := 31, font_name := "Helvetica-Bold",
              bbox := [1, 2, 3, 4] } : TextFragment)] :=
  c10_font_independent _ _ (List.Forall₂.cons ⟨rfl, rfl⟩ List.Forall₂.nil)

/-- Example span for the C8 witness. -/
def c8Span : Span := { text := "INTRODUCTION TO THINGS" }

/-- Example line for the C8 witness. -/
def c8Line : Line := { spans := [c8Span] }

/-- Example block for the C8 witness. -/
def c8Block : Block := { bbox := [0, 0, 0, 0], lines := some [c8Line] }

theorem c8_block_score :
    calculateTitleScore c8Span "INTRODUCTION TO THINGS" c8Block = 72 := by
  have h1 : ("INTRODUCTION TO THINGS").length = 22 := by decide
  have h2 : reMatch scoreArtifactPattern "INTRODUCTION TO THINGS" = false := by
    decide
  have h3 : (titleIndicatorPatterns.any fun p =>
      if p.2 = true then reMatch p.1 "INTRODUCTION TO THINGS"
      else reSearch p.1 "INTRODUCTION TO THINGS") = true := by decide
  have h4 : pyCountChar "INTRODUCTION TO THINGS" '.' = 0 := by decide
  have h5 : stopWordCount12 "INTRODUCTION TO THINGS" = 1 := by decide
  norm_num [calculateTitleScore, c8Span, c8Block, h1, h2, h3, h4, h5]

theorem c8_candidates :
    titleCandidates [c8Block] = [("INTRODUCTION TO THINGS", 72)] := by
  have hstrip : pyStrip c8Span.text = "INTRODUCTION TO THINGS" := by decide
  have hne : ("INTRODUCTION TO THINGS" ≠ "")
      ∧ ("INTRODUCTION TO THINGS").length > 3 := by decide
  have hlines : c8Block.lines = some [c8Line] := rfl
  have hspans : c8Line.spans = [c8Span] := rfl
  simp only [titleCandidates, List.flatMap_cons, List.flatMap_nil,
    List.append_nil, List.filterMap_cons, List.filterMap_nil, hlines, hspans,
    hstrip]
  rw [if_pos hne, c8_block_score]
  norm_num

/-- **C8, counterexample.**  The claim's formula (`2×font_size`, +50/+30
position bands at 100/200 units, +25 bold, +10 italic, +20 for 10–100
chars, −30 over 200, −100 artifacts, +30 keywords) disagrees with the
code: for a default-font span of the 20-character text
`"Hello World Example!"` at the top of the page the code scores 57 while
the claimed formula gives 94. -/
theorem c8_counterexample :
    calculateTitleScore { text := "x" } "Hello World Example!"
        { bbox := [0, 0, 0, 0] } = 57
    ∧ specTitleScore { text := "x" } "Hello World Example!"
        { bbox := [0, 0, 0, 0] } = 94
    ∧ (57 : ℚ) ≠ 94 := by
  refine ⟨?_, ?_, by norm_num⟩
  · have h1 : ("Hello World Example!").length = 20 := by decide
    have h2 : reMatch scoreArtifactPattern "Hello World Example!" = false := by
      decide
    have h3 : (titleIndicatorPatterns.any fun p =>
        if p.2 = true then reMatch p.1 "Hello World Example!"
        else reSearch p.1 "Hello World Example!") = false := by decide
    have h4 : pyCountChar "Hello World Example!" '.' = 0 := by decide
    have h5 : stopWordCount12 "Hello World Example!" = 0 := by decide
    norm_num [calculateTitleScore, h1, h2, h3, h4, h5]
  · have h1 : ("Hello World Example!").length = 20 := by decide
    have h6 : specTitleArtifact "Hello World Example!" = false := by decide
    have h7 : specLeadingKeyword "Hello World Example!" = false := by decide
    norm_num [specTitleScore, h1, h6, h7]

/-- **C8 (amended).**  The real first-page title score is the sum of: a
font-size band bonus (+40 at ≥18, +30 at ≥16, +20 at ≥14, else the size
itself), a position bonus (+30 when the block top is under 150 units, +15
under 300), +20 for bold and +5 for italic, a length adjustment (+15 for
10–80 chars, −20 over 150, −10 under 5), −50 for artifact shapes, +15 for
a title-indicator pattern, −25 for two or more periods, and −15 for four
or more common words; a span qualifies as a candidate only when its score
strictly exceeds 15; and the selected candidate is the first (in input
order) of maximal score, since the stable descending sort's head is the
first element that weakly dominates all scores. -/
theorem c8_amended_scoring (span : Span) (text : String) (block : Block)
    (page1 : List Block) (c : String × ℚ) (l : List (String × ℚ)) :
    calculateTitleScore span text block = amendedTitleScore span text block
    ∧ (c ∈ titleCandidates page1 → (15 : ℚ) < c.2)
    ∧ (sortByScoreDesc l).head?
        = l.find? (fun d => l.all (fun e => decide (e.2 ≤ d.2))) :=
  ⟨calculateTitleScore_eq_amended span text block,
    fun hc => titleCandidates_score_gt hc,
    sortByScoreDesc_head_find l⟩

/-- Witness for C8 (amended): the concrete one-span page, whose only
candidate scores 72 > 15, and a concrete two-way tie resolved in favour of
the first element. -/
theorem c8_witness :
    calculateTitleScore c8Span "INTRODUCTION TO THINGS" c8Block
        = amendedTitleScore c8Span "INTRODUCTION TO THINGS" c8Block
    ∧ (15 : ℚ) < (("INTRODUCTION TO THINGS", (72 : ℚ)) : String × ℚ).2
    ∧ (sortByScoreDesc [("first", 20), ("second", 20)]).head?
        = [(("first" : String), (20 : ℚ)), ("second", 20)].find?
            (fun d => [(("first" : String), (20 : ℚ)), ("second", 20)].all
              (fun e => decide (e.2 ≤ d.2))) := by
  have h := c8_amended_scoring c8Span "INTRODUCTION TO THINGS" c8Block
    [c8Block] ("INTRODUCTION TO THINGS", 72) [("first", 20), ("second", 20)]
  exact ⟨h.1, h.2.1 (by rw [c8_candidates]; exact List.mem_singleton.mpr rfl),
    h.2.2⟩
